import Mathlib

/-!
Verification of the libmodbus implementation file `modbus.c`.

This file contains a shallow embedding of the protocol-level parts of
`modbus.c` (CRC-16 engine, frame codec, expected-size oracle, the
length table of the progressive receive engine, master request
builders, server dispatch, bit pack/unpack helpers and the master
response classifier), followed by theorems about the embedded
definitions.

Modelling conventions:
- byte messages are `List Nat` (each byte a natural number below 256);
- C arrays written in place (`uint8_t *` output buffers, the register
  tables of `modbus_mapping_t`) are functions `Nat → Nat` updated
  pointwise;
- machine integers are `Nat`/`Int`, with explicit reduction modulo
  2 ^ 8 or 2 ^ 16 exactly where the C code converts a value to
  `uint8_t`/`uint16_t`;
- blocking I/O (`receive_msg`) is not executed: functions that consume
  its outcome take the outcome (return code, received bytes, received
  size) as explicit arguments.
-/

/-! ## Parameters and constants -/

/-- Communication type selector, mirroring `type_com` in `modbus_param_t`. -/
inductive ComType where
  | RTU : ComType
  | TCP : ComType
deriving DecidableEq

/-- Subset of `modbus_param_t` that the embedded protocol code reads
(the descriptor, serial settings and debug flag are I/O-only). -/
structure modbus_param_t where
  type_com : ComType
  header_length : Nat
  checksum_size : Nat
deriving DecidableEq

/-- Modelled from the spec: `HEADER_LENGTH_RTU` from the missing header
`modbus.h` (spec 6, constants required by interop). -/
def HEADER_LENGTH_RTU : Nat := 0

/-- Modelled from the spec: `CHECKSUM_SIZE_RTU` from the missing `modbus.h`. -/
def CHECKSUM_SIZE_RTU : Nat := 2

/-- Modelled from the spec: `HEADER_LENGTH_TCP` from the missing `modbus.h`. -/
def HEADER_LENGTH_TCP : Nat := 6

/-- Modelled from the spec: `CHECKSUM_SIZE_TCP` from the missing `modbus.h`. -/
def CHECKSUM_SIZE_TCP : Nat := 0

/-- Modelled from the spec: `MAX_PACKET_SIZE` from the missing `modbus.h`. -/
def MAX_PACKET_SIZE : Nat := 260

/-- The `modbus_param_t` produced by `modbus_init_rtu` (protocol fields). -/
def mb_param_rtu : modbus_param_t :=
  { type_com := ComType.RTU
    header_length := HEADER_LENGTH_RTU
    checksum_size := CHECKSUM_SIZE_RTU }

/-- The `modbus_param_t` produced by `modbus_init_tcp` (protocol fields). -/
def mb_param_tcp : modbus_param_t :=
  { type_com := ComType.TCP
    header_length := HEADER_LENGTH_TCP
    checksum_size := CHECKSUM_SIZE_TCP }

/-- Modelled from the spec: function code 0x01 Read Coils (missing `modbus.h`). -/
def FC_READ_COIL_STATUS : Nat := 0x01

/-- Modelled from the spec: function code 0x02 Read Discrete Inputs. -/
def FC_READ_INPUT_STATUS : Nat := 0x02

/-- Modelled from the spec: function code 0x03 Read Holding Registers. -/
def FC_READ_HOLDING_REGISTERS : Nat := 0x03

/-- Modelled from the spec: function code 0x04 Read Input Registers. -/
def FC_READ_INPUT_REGISTERS : Nat := 0x04

/-- Modelled from the spec: function code 0x05 Write Single Coil. -/
def FC_FORCE_SINGLE_COIL : Nat := 0x05

/-- Modelled from the spec: function code 0x06 Write Single Register. -/
def FC_PRESET_SINGLE_REGISTER : Nat := 0x06

/-- Modelled from the spec: function code 0x07 Read Exception Status. -/
def FC_READ_EXCEPTION_STATUS : Nat := 0x07

/-- Modelled from the spec: function code 0x0F Write Multiple Coils. -/
def FC_FORCE_MULTIPLE_COILS : Nat := 0x0F

/-- Modelled from the spec: function code 0x10 Write Multiple Registers. -/
def FC_PRESET_MULTIPLE_REGISTERS : Nat := 0x10

/-- Modelled from the spec: function code 0x11 Report Slave ID. -/
def FC_REPORT_SLAVE_ID : Nat := 0x11

/-- Modelled from the spec: read-holding-registers quantity cap
(spec 4.5, clamping: read holding/input registers at most 125). -/
def MAX_READ_HOLD_REGS : Nat := 125

/-- Modelled from the spec: read-input-registers quantity cap (125). -/
def MAX_READ_INPUT_REGS : Nat := 125

/-- Modelled from the spec: write-multiple-registers quantity cap (123). -/
def MAX_WRITE_REGS : Nat := 123

/-- Modelled from the spec: write-multiple-coils quantity cap (1968). -/
def MAX_WRITE_COILS : Nat := 1968

/-- Modelled from the spec: `ON` boolean coil value from the missing
`modbus.h` (a coil is a 1-bit object; `response_io_status` shifts it
directly into a bit position, fixing `ON = 1`). -/
def ON : Nat := 1

/-- Modelled from the spec: `OFF` boolean coil value (0). -/
def OFF : Nat := 0

/-- Modelled from the spec: RTU preset query size (six bytes, spec 4.2). -/
def PRESET_QUERY_SIZE_RTU : Nat := 6

/-- Modelled from the spec: TCP preset query size (twelve bytes, spec 4.2). -/
def PRESET_QUERY_SIZE_TCP : Nat := 12

/-- Modelled from the spec: RTU preset response size; the RTU response
header holds slave, function and byte count, and the builder returns
this constant plus one, reaching offset 3. -/
def PRESET_RESPONSE_SIZE_RTU : Nat := 2

/-- Modelled from the spec: TCP preset response size; the MBAP response
header occupies bytes 0 to 8, and the builder returns this constant
plus one, reaching offset 9. -/
def PRESET_RESPONSE_SIZE_TCP : Nat := 8

/-- Modelled from the spec: library error codes are a disjoint set of
distinct negative integers (spec 6), disjoint from the negated Modbus
exception codes 0x00 to 0x0B. The exact numeric values are in the
missing `modbus.h`; only distinctness and negativity matter here. -/
def INVALID_CRC : Int := -13

/-- Modelled from the spec: communication timeout error code. -/
def COMM_TIME_OUT : Int := -14

/-- Modelled from the spec: port or socket failure error code. -/
def PORT_SOCKET_FAILURE : Int := -15

/-- Modelled from the spec: select failure error code. -/
def SELECT_FAILURE : Int := -16

/-- Modelled from the spec: connection closed error code. -/
def CONNECTION_CLOSED : Int := -17

/-- Modelled from the spec: oversize frame error code. -/
def TOO_MANY_DATAS : Int := -18

/-- Modelled from the spec: invalid exception code error code. -/
def INVALID_EXCEPTION_CODE : Int := -19

/-- Bound of the error message table `TAB_ERROR_MSG` (from `modbus.c`,
`static const uint8_t NB_TAB_ERROR_MSG = 12`). -/
def NB_TAB_ERROR_MSG : Nat := 12

/-- Conversion of a C `int` value to `uint16_t` (value modulo 2 ^ 16). -/
def toU16 (v : Int) : Nat := (v % 65536).toNat

/-- Conversion of a C `int` value to `uint8_t` (value modulo 2 ^ 8). -/
def toU8 (v : Int) : Nat := (v % 256).toNat

/-- Pointwise write into a C byte array modelled as a function. -/
def writeByte (buf : Nat → Nat) (i v : Nat) : Nat → Nat :=
  fun p => if p = i then v else buf p

/-! ## CRC-16 engine -/

/-- Table of CRC values for the high-order byte, from `modbus.c`. -/
def table_crc_hi : List Nat := [
  0x00, 0xC1, 0x81, 0x40, 0x01, 0xC0, 0x80, 0x41,
  0x01, 0xC0, 0x80, 0x41, 0x00, 0xC1, 0x81, 0x40,
  0x01, 0xC0, 0x80, 0x41, 0x00, 0xC1, 0x81, 0x40,
  0x00, 0xC1, 0x81, 0x40, 0x01, 0xC0, 0x80, 0x41,
  0x01, 0xC0, 0x80, 0x41, 0x00, 0xC1, 0x81, 0x40,
  0x00, 0xC1, 0x81, 0x40, 0x01, 0xC0, 0x80, 0x41,
  0x00, 0xC1, 0x81, 0x40, 0x01, 0xC0, 0x80, 0x41,
  0x01, 0xC0, 0x80, 0x41, 0x00, 0xC1, 0x81, 0x40,
  0x01, 0xC0, 0x80, 0x41, 0x00, 0xC1, 0x81, 0x40,
  0x00, 0xC1, 0x81, 0x40, 0x01, 0xC0, 0x80, 0x41,
  0x00, 0xC1, 0x81, 0x40, 0x01, 0xC0, 0x80, 0x41,
  0x01, 0xC0, 0x80, 0x41, 0x00, 0xC1, 0x81, 0x40,
  0x00, 0xC1, 0x81, 0x40, 0x01, 0xC0, 0x80, 0x41,
  0x01, 0xC0, 0x80, 0x41, 0x00, 0xC1, 0x81, 0x40,
  0x01, 0xC0, 0x80, 0x41, 0x00, 0xC1, 0x81, 0x40,
  0x00, 0xC1, 0x81, 0x40, 0x01, 0xC0, 0x80, 0x41,
  0x01, 0xC0, 0x80, 0x41, 0x00, 0xC1, 0x81, 0x40,
  0x00, 0xC1, 0x81, 0x40, 0x01, 0xC0, 0x80, 0x41,
  0x00, 0xC1, 0x81, 0x40, 0x01, 0xC0, 0x80, 0x41,
  0x01, 0xC0, 0x80, 0x41, 0x00, 0xC1, 0x81, 0x40,
  0x00, 0xC1, 0x81, 0x40, 0x01, 0xC0, 0x80, 0x41,
  0x01, 0xC0, 0x80, 0x41, 0x00, 0xC1, 0x81, 0x40,
  0x01, 0xC0, 0x80, 0x41, 0x00, 0xC1, 0x81, 0x40,
  0x00, 0xC1, 0x81, 0x40, 0x01, 0xC0, 0x80, 0x41,
  0x00, 0xC1, 0x81, 0x40, 0x01, 0xC0, 0x80, 0x41,
  0x01, 0xC0, 0x80, 0x41, 0x00, 0xC1, 0x81, 0x40,
  0x01, 0xC0, 0x80, 0x41, 0x00, 0xC1, 0x81, 0x40,
  0x00, 0xC1, 0x81, 0x40, 0x01, 0xC0, 0x80, 0x41,
  0x01, 0xC0, 0x80, 0x41, 0x00, 0xC1, 0x81, 0x40,
  0x00, 0xC1, 0x81, 0x40, 0x01, 0xC0, 0x80, 0x41,
  0x00, 0xC1, 0x81, 0x40, 0x01, 0xC0, 0x80, 0x41,
  0x01, 0xC0, 0x80, 0x41, 0x00, 0xC1, 0x81, 0x40]

/-- Table of CRC values for the low-order byte, from `modbus.c`. -/
def table_crc_lo : List Nat := [
  0x00, 0xC0, 0xC1, 0x01, 0xC3, 0x03, 0x02, 0xC2,
  0xC6, 0x06, 0x07, 0xC7, 0x05, 0xC5, 0xC4, 0x04,
  0xCC, 0x0C, 0x0D, 0xCD, 0x0F, 0xCF, 0xCE, 0x0E,
  0x0A, 0xCA, 0xCB, 0x0B, 0xC9, 0x09, 0x08, 0xC8,
  0xD8, 0x18, 0x19, 0xD9, 0x1B, 0xDB, 0xDA, 0x1A,
  0x1E, 0xDE, 0xDF, 0x1F, 0xDD, 0x1D, 0x1C, 0xDC,
  0x14, 0xD4, 0xD5, 0x15, 0xD7, 0x17, 0x16, 0xD6,
  0xD2, 0x12, 0x13, 0xD3, 0x11, 0xD1, 0xD0, 0x10,
  0xF0, 0x30, 0x31, 0xF1, 0x33, 0xF3, 0xF2, 0x32,
  0x36, 0xF6, 0xF7, 0x37, 0xF5, 0x35, 0x34, 0xF4,
  0x3C, 0xFC, 0xFD, 0x3D, 0xFF, 0x3F, 0x3E, 0xFE,
  0xFA, 0x3A, 0x3B, 0xFB, 0x39, 0xF9, 0xF8, 0x38,
  0x28, 0xE8, 0xE9, 0x29, 0xEB, 0x2B, 0x2A, 0xEA,
  0xEE, 0x2E, 0x2F, 0xEF, 0x2D, 0xED, 0xEC, 0x2C,
  0xE4, 0x24, 0x25, 0xE5, 0x27, 0xE7, 0xE6, 0x26,
  0x22, 0xE2, 0xE3, 0x23, 0xE1, 0x21, 0x20, 0xE0,
  0xA0, 0x60, 0x61, 0xA1, 0x63, 0xA3, 0xA2, 0x62,
  0x66, 0xA6, 0xA7, 0x67, 0xA5, 0x65, 0x64, 0xA4,
  0x6C, 0xAC, 0xAD, 0x6D, 0xAF, 0x6F, 0x6E, 0xAE,
  0xAA, 0x6A, 0x6B, 0xAB, 0x69, 0xA9, 0xA8, 0x68,
  0x78, 0xB8, 0xB9, 0x79, 0xBB, 0x7B, 0x7A, 0xBA,
  0xBE, 0x7E, 0x7F, 0xBF, 0x7D, 0xBD, 0xBC, 0x7C,
  0xB4, 0x74, 0x75, 0xB5, 0x77, 0xB7, 0xB6, 0x76,
  0x72, 0xB2, 0xB3, 0x73, 0xB1, 0x71, 0x70, 0xB0,
  0x50, 0x90, 0x91, 0x51, 0x93, 0x53, 0x52, 0x92,
  0x96, 0x56, 0x57, 0x97, 0x55, 0x95, 0x94, 0x54,
  0x9C, 0x5C, 0x5D, 0x9D, 0x5F, 0x9F, 0x9E, 0x5E,
  0x5A, 0x9A, 0x9B, 0x5B, 0x99, 0x59, 0x58, 0x98,
  0x88, 0x48, 0x49, 0x89, 0x4B, 0x8B, 0x8A, 0x4A,
  0x4E, 0x8E, 0x8F, 0x4F, 0x8D, 0x4D, 0x4C, 0x8C,
  0x44, 0x84, 0x85, 0x45, 0x87, 0x47, 0x46, 0x86,
  0x82, 0x42, 0x43, 0x83, 0x41, 0x81, 0x80, 0x40]

/-- Loop of `crc16`: walks the message bytes carrying the pair
(crc_hi, crc_lo), exactly as the C `while (buffer_length--)` loop. -/
def crc16Aux : Nat → Nat → List Nat → Nat × Nat
  | crc_hi, crc_lo, [] => (crc_hi, crc_lo)
  | crc_hi, crc_lo, b :: rest =>
      let i := crc_hi ^^^ b
      crc16Aux (crc_lo ^^^ table_crc_hi.getD i 0) (table_crc_lo.getD i 0) rest

/-- Table-driven Modbus CRC as in `crc16` of `modbus.c`: both bytes
start at 0xFF and the returned value is `crc_hi << 8 | crc_lo`. -/
def crc16 (buffer : List Nat) (buffer_length : Nat) : Nat :=
  let p := crc16Aux 0xFF 0xFF (buffer.take buffer_length)
  (p.1 <<< 8) ||| p.2

/-- CRC verification as in `check_crc16` of `modbus.c`: in RTU mode the
CRC is recomputed over all but the last two bytes and compared against
`(msg[msg_size - 2] << 8) | msg[msg_size - 1]`; in TCP mode the check
is a no-op returning 0. -/
def check_crc16 (mb_param : modbus_param_t) (msg : List Nat) (msg_size : Nat) : Int :=
  if mb_param.type_com = ComType.RTU then
    let crc_calc := crc16 msg (msg_size - 2)
    let crc_received := (msg.getD (msg_size - 2) 0 <<< 8) ||| msg.getD (msg_size - 1) 0
    if crc_calc = crc_received then 0 else INVALID_CRC
  else
    0

/-- Length fix-up of a TCP frame as in `set_packet_length_tcp`: bytes 4
and 5 receive the 16-bit value `packet_size - 6`. -/
def set_packet_length_tcp (packet : List Nat) (packet_size : Nat) : List Nat :=
  let mbap_length := (packet_size - 6) % 65536
  (packet.set 4 (mbap_length >>> 8)).set 5 (mbap_length &&& 0x00FF)

/-- On-the-wire bytes produced by `modbus_send` from a query of
`query_size` bytes: RTU appends the CRC, high byte of the `crc16`
return value first, low byte second; TCP rewrites the MBAP length
field. The actual `write`/`send` syscall is I/O and not modelled. -/
def modbus_send (mb_param : modbus_param_t) (query : List Nat) : List Nat :=
  if mb_param.type_com = ComType.RTU then
    let s_crc := crc16 query query.length
    query ++ [s_crc >>> 8, s_crc &&& 0x00FF]
  else
    set_packet_length_tcp query query.length

/-! ## Expected-size oracle and progressive receive length table -/

/-- Expected response size as in `compute_response_size` of `modbus.c`:
switch on the function code at `header_length + 1`, quantity decoded
big-endian from bytes `header_length + 4` and `header_length + 5`, then
add `header_length + checksum_size`. -/
def compute_response_size (mb_param : modbus_param_t) (query : List Nat) : Nat :=
  let offset := mb_param.header_length
  let fc := query.getD (offset + 1) 0
  let response_size_computed :=
    if fc = FC_READ_COIL_STATUS ∨ fc = FC_READ_INPUT_STATUS then
      let coil_count := (query.getD (offset + 4) 0 <<< 8) ||| query.getD (offset + 5) 0
      3 + (coil_count / 8 + if coil_count % 8 ≠ 0 then 1 else 0)
    else if fc = FC_READ_HOLDING_REGISTERS ∨ fc = FC_READ_INPUT_REGISTERS then
      3 + 2 * ((query.getD (offset + 4) 0 <<< 8) ||| query.getD (offset + 5) 0)
    else if fc = FC_READ_EXCEPTION_STATUS then
      4
    else
      6
  response_size_computed + offset + mb_param.checksum_size

/-- Number of bytes following the function code that the progressive
receive engine expects, as in `compute_query_size_header` of `modbus.c`:
4 for function codes up to `FC_FORCE_SINGLE_COIL`, 5 for the two
multi-write codes, otherwise 0. -/
def compute_query_size_header (function : Nat) : Nat :=
  if function ≤ FC_FORCE_SINGLE_COIL then 4
  else if function = FC_FORCE_MULTIPLE_COILS ∨ function = FC_PRESET_MULTIPLE_REGISTERS then 5
  else 0

/-- Data-size step of the progressive receive engine, as in
`compute_query_size_data` of `modbus.c`: for the two multi-write codes
the byte count at `header_length + 6` is consumed, then the checksum
trailer size is added. -/
def compute_query_size_data (mb_param : modbus_param_t) (msg : List Nat) : Nat :=
  let function := msg.getD (mb_param.header_length + 1) 0
  let byte :=
    if function = FC_FORCE_MULTIPLE_COILS ∨ function = FC_PRESET_MULTIPLE_REGISTERS then
      msg.getD (mb_param.header_length + 6) 0
    else 0
  byte + mb_param.checksum_size

/-! ## Frame codec (request builders) -/

/-- RTU request header as in `build_query_packet_rtu`: six bytes, the
start address and count serialized big-endian. -/
def build_query_packet_rtu (slave function start_addr count : Nat) : List Nat :=
  [slave, function, start_addr >>> 8, start_addr &&& 0x00FF,
   count >>> 8, count &&& 0x00FF]

/-- Transaction identifier advance of `build_query_packet_tcp`: the
static counter is incremented before use and wraps to 0 after
`UINT16_MAX`. -/
def next_t_id (t_id : Nat) : Nat :=
  if t_id < 65535 then t_id + 1 else 0

/-- MBAP request header as in `build_query_packet_tcp`. The C static
`t_id` is threaded explicitly: the function takes the counter value
before the call and returns the advanced counter, the updated packet
buffer and the preset query size. Bytes 4 and 5 (length) are left for
`set_packet_length_tcp`. -/
def build_query_packet_tcp (t_id : Nat) (slave function start_addr count : Nat)
    (packet : Nat → Nat) : Nat × (Nat → Nat) × Nat :=
  let t_id := next_t_id t_id
  let p := writeByte (writeByte packet 0 (t_id >>> 8)) 1 (t_id &&& 0x00FF)
  let p := writeByte (writeByte p 2 0) 3 0
  let p := writeByte (writeByte p 6 slave) 7 function
  let p := writeByte (writeByte p 8 (start_addr >>> 8)) 9 (start_addr &&& 0x00FF)
  let p := writeByte (writeByte p 10 (count >>> 8)) 11 (count &&& 0x00FF)
  (t_id, p, PRESET_QUERY_SIZE_TCP)

/-! ## Master operations (request construction; RTU envelope) -/

/-- Preset-single query as in `set_single` of `modbus.c` (RTU envelope;
the CRC trailer is appended later by `modbus_send`): the value travels
in the count field of the request header. -/
def set_single_query (slave : Int) (function : Nat) (addr value : Int) : List Nat :=
  build_query_packet_rtu (toU8 slave) function (toU16 addr) (toU16 value)

/-- Write Single Coil request as in `force_single_coil` of `modbus.c`:
a nonzero `state` is normalized to 0xFF00 before `set_single`. -/
def force_single_coil_query (slave coil_addr state : Int) : List Nat :=
  let state := if state ≠ 0 then (0xFF00 : Int) else state
  set_single_query slave FC_FORCE_SINGLE_COIL coil_addr state

/-- Write Single Register request as in `preset_single_register`. -/
def preset_single_register_query (slave reg_addr value : Int) : List Nat :=
  set_single_query slave FC_PRESET_SINGLE_REGISTER reg_addr value

/-- Read Holding Registers request as in `read_holding_registers` of
`modbus.c`: a count above `MAX_READ_HOLD_REGS` is clamped to that cap,
then `build_query_packet` emits a single request. -/
def read_holding_registers_query (slave start_addr : Int) (count : Int) : List Nat :=
  let count := if count > (MAX_READ_HOLD_REGS : Int) then (MAX_READ_HOLD_REGS : Int) else count
  build_query_packet_rtu (toU8 slave) FC_READ_HOLDING_REGISTERS (toU16 start_addr) (toU16 count)

/-- Read Input Registers request as in `read_input_registers`. -/
def read_input_registers_query (slave start_addr : Int) (count : Int) : List Nat :=
  let count := if count > (MAX_READ_INPUT_REGS : Int) then (MAX_READ_INPUT_REGS : Int) else count
  build_query_packet_rtu (toU8 slave) FC_READ_INPUT_REGISTERS (toU16 start_addr) (toU16 count)

/-- Data bytes appended by `preset_multiple_registers`: each 16-bit
source value big-endian. -/
def pmr_data (data_src : Nat → Nat) : Nat → Nat → List Nat
  | _, 0 => []
  | i, n + 1 => (data_src i >>> 8) :: (data_src i &&& 0x00FF) :: pmr_data data_src (i + 1) n

/-- Write Multiple Registers request as in `preset_multiple_registers`
of `modbus.c`: clamp to `MAX_WRITE_REGS`, header, byte count
(`reg_count * 2` stored as `uint8_t`), then the big-endian data. -/
def preset_multiple_registers_query (slave start_addr : Int) (reg_count : Int)
    (data_src : Nat → Nat) : List Nat :=
  let reg_count := if reg_count > (MAX_WRITE_REGS : Int) then (MAX_WRITE_REGS : Int) else reg_count
  let q := build_query_packet_rtu (toU8 slave) FC_PRESET_MULTIPLE_REGISTERS
      (toU16 start_addr) (toU16 reg_count)
  q ++ [toU8 (reg_count * 2)] ++ pmr_data data_src 0 reg_count.toNat

/-- Inner bit loop of `force_multiple_coils`: while `bit & 0xFF` is
nonzero and the coil counter has not reached the coil count, or a data
bit into the accumulator and double `bit`. The C short-circuit
increments the counter on every evaluation of its test, which is
mirrored here; the fuel (9 at the call site) strictly dominates the at
most 8 iterations the `bit & 0xFF` guard allows. Returns the packed
byte, the advanced data position and the advanced coil counter. -/
def fmc_inner (data_src : Nat → Nat) (pos coil_check coil_count bit acc : Nat) :
    Nat → Nat × Nat × Nat
  | 0 => (acc, pos, coil_check)
  | fuel + 1 =>
    if bit &&& 0xFF ≠ 0 then
      if coil_check < coil_count then
        let acc := if data_src pos ≠ 0 then acc ||| bit else acc &&& (0xFF ^^^ bit)
        fmc_inner data_src (pos + 1) (coil_check + 1) coil_count (bit <<< 1) acc fuel
      else (acc, pos, coil_check + 1)
    else (acc, pos, coil_check)

/-- Outer byte loop of `force_multiple_coils`: one packed byte per
iteration. -/
def fmc_bytes (data_src : Nat → Nat) (pos coil_check coil_count : Nat) : Nat → List Nat
  | 0 => []
  | n + 1 =>
    let r := fmc_inner data_src pos coil_check coil_count 0x01 0 9
    r.1 :: fmc_bytes data_src r.2.1 r.2.2 coil_count n

/-- Write Multiple Coils request as in `force_multiple_coils` of
`modbus.c`: clamp to `MAX_WRITE_COILS`, header, byte count, packed
bits. -/
def force_multiple_coils_query (slave start_addr : Int) (coil_count : Int)
    (data_src : Nat → Nat) : List Nat :=
  let coil_count := if coil_count > (MAX_WRITE_COILS : Int) then (MAX_WRITE_COILS : Int) else coil_count
  let q := build_query_packet_rtu (toU8 slave) FC_FORCE_MULTIPLE_COILS
      (toU16 start_addr) (toU16 coil_count)
  let byte_count := coil_count.tdiv 8 + if coil_count.tmod 8 ≠ 0 then 1 else 0
  q ++ [toU8 byte_count] ++ fmc_bytes data_src 0 0 coil_count.toNat byte_count.toNat

/-! ## Server dispatch -/

/-- Register map, mirroring `modbus_mapping_t`: four declared lengths
and four tables (C arrays modelled as functions). -/
structure modbus_mapping_t where
  nb_coil_status : Nat
  nb_input_status : Nat
  nb_holding_registers : Nat
  nb_input_registers : Nat
  tab_coil_status : Nat → Nat
  tab_input_status : Nat → Nat
  tab_holding_registers : Nat → Nat
  tab_input_registers : Nat → Nat

/-- RTU response header as in `build_response_packet_rtu`: slave,
function and byte count at offsets 0 to 2, returning
`PRESET_RESPONSE_SIZE_RTU + 1`. -/
def build_response_packet_rtu (slave function byte_count : Nat) (packet : Nat → Nat) :
    (Nat → Nat) × Nat :=
  (writeByte (writeByte (writeByte packet 0 slave) 1 function) 2 byte_count,
   PRESET_RESPONSE_SIZE_RTU + 1)

/-- MBAP response header as in `build_response_packet_tcp`; the static
transaction counter is threaded explicitly as in
`build_query_packet_tcp`. -/
def build_response_packet_tcp (t_id slave function byte_count : Nat) (packet : Nat → Nat) :
    Nat × (Nat → Nat) × Nat :=
  let t_id := next_t_id t_id
  let p := writeByte (writeByte packet 0 (t_id >>> 8)) 1 (t_id &&& 0x00FF)
  let p := writeByte (writeByte p 2 0) 3 0
  let p := writeByte (writeByte p 6 slave) 7 function
  let p := writeByte p 8 byte_count
  (t_id, p, PRESET_RESPONSE_SIZE_TCP + 1)

/-- Dispatch on the transport as in `build_response_packet`. Returns
the advanced transaction counter (unchanged in RTU), the updated
response buffer and the offset past the header. -/
def build_response_packet (mb_param : modbus_param_t) (t_id slave function byte_count : Nat)
    (packet : Nat → Nat) : Nat × (Nat → Nat) × Nat :=
  if mb_param.type_com = ComType.RTU then
    let r := build_response_packet_rtu slave function byte_count packet
    (t_id, r.1, r.2)
  else
    build_response_packet_tcp t_id slave function byte_count packet

/-- Loop state of `response_io_status`: the response buffer, the write
offset, the bit shift and the byte accumulator. -/
structure RioState where
  response : Nat → Nat
  offset : Nat
  shift : Nat
  byte : Nat

/-- Bit-packing loop of `response_io_status`: for each status cell, or
it into the accumulator at the current shift; on shift 7 the byte is
full and is flushed to the response buffer. -/
def response_io_status_loop (tab_io_status : Nat → Nat) : Nat → Nat → RioState → RioState
  | _, 0, st => st
  | i, count + 1, st =>
    let byte := st.byte ||| (tab_io_status i <<< st.shift)
    if st.shift = 7 then
      response_io_status_loop tab_io_status (i + 1) count
        { response := writeByte st.response st.offset byte
          offset := st.offset + 1, shift := 0, byte := 0 }
    else
      response_io_status_loop tab_io_status (i + 1) count
        { st with shift := st.shift + 1, byte := byte }

/-- Final flush of `response_io_status`: a leftover partial byte is
written out after the loop. -/
def flushRio (st : RioState) : Nat → Nat :=
  if st.shift ≠ 0 then writeByte st.response st.offset st.byte else st.response

/-- Offset past the written bytes after the final flush of
`response_io_status`. -/
def flushRioOffset (st : RioState) : Nat :=
  if st.shift ≠ 0 then st.offset + 1 else st.offset

/-- Packing of coil/input status bits as in `response_io_status` of
`modbus.c`: pack `count` cells starting at `address` LSB-first into the
response buffer at `offset`, flushing a final partial byte. Returns the
updated buffer and the offset past the written bytes. -/
def response_io_status (address count : Nat) (tab_io_status : Nat → Nat)
    (response : Nat → Nat) (offset : Nat) : (Nat → Nat) × Nat :=
  let st := response_io_status_loop tab_io_status address count
    { response := response, offset := offset, shift := 0, byte := 0 }
  (flushRio st, flushRioOffset st)

/-- Register copy loop of the read-registers arms of `manage_query`:
each 16-bit table value is emitted big-endian. -/
def store_registers (tab : Nat → Nat) : Nat → Nat → (Nat → Nat) → Nat → (Nat → Nat) × Nat
  | _, 0, response, offset => (response, offset)
  | i, count + 1, response, offset =>
    let response := writeByte response offset (tab i >>> 8)
    let response := writeByte response (offset + 1) (tab i &&& 0xFF)
    store_registers tab (i + 1) count response (offset + 2)

/-- Server dispatch as in `manage_query` of `modbus.c`. The static
transaction counter of the TCP response builder is threaded explicitly;
`response` is the stack response buffer before the call (its prior
contents show through wherever the C code leaves bytes unwritten).
Returns the updated register map, the response buffer, the response
size handed to `modbus_send`, and the advanced transaction counter.
The final `modbus_send` itself is shared with the master path and
modelled separately. -/
def manage_query (mb_param : modbus_param_t) (query : List Nat) (query_size : Nat)
    (mb_mapping : modbus_mapping_t) (response : Nat → Nat) (t_id : Nat) :
    modbus_mapping_t × (Nat → Nat) × Nat × Nat :=
  let offset := mb_param.header_length
  let slave := query.getD offset 0
  let function := query.getD (offset + 1) 0
  let address := (query.getD (offset + 2) 0 <<< 8) + query.getD (offset + 3) 0
  if function = FC_READ_COIL_STATUS then
    let count := (query.getD (offset + 4) 0 <<< 8) + query.getD (offset + 5) 0
    let byte_count := count / 8 + if count % 8 ≠ 0 then 1 else 0
    let b := build_response_packet mb_param t_id slave function byte_count response
    let r := response_io_status address count mb_mapping.tab_coil_status b.2.1 b.2.2
    (mb_mapping, r.1, r.2, b.1)
  else if function = FC_READ_INPUT_STATUS then
    let count := (query.getD (offset + 4) 0 <<< 8) + query.getD (offset + 5) 0
    let byte_count := count / 8 + if count % 8 ≠ 0 then 1 else 0
    let b := build_response_packet mb_param t_id slave function byte_count response
    let r := response_io_status address count mb_mapping.tab_input_status b.2.1 b.2.2
    (mb_mapping, r.1, r.2, b.1)
  else if function = FC_READ_HOLDING_REGISTERS then
    let count := (query.getD (offset + 4) 0 <<< 8) + query.getD (offset + 5) 0
    let b := build_response_packet mb_param t_id slave function (2 * count) response
    let r := store_registers mb_mapping.tab_holding_registers address count b.2.1 b.2.2
    (mb_mapping, r.1, r.2, b.1)
  else if function = FC_READ_INPUT_REGISTERS then
    let count := (query.getD (offset + 4) 0 <<< 8) + query.getD (offset + 5) 0
    let b := build_response_packet mb_param t_id slave function (2 * count) response
    let r := store_registers mb_mapping.tab_input_registers address count b.2.1 b.2.2
    (mb_mapping, r.1, r.2, b.1)
  else if function = FC_FORCE_SINGLE_COIL then
    let data := (query.getD (offset + 4) 0 <<< 8) + query.getD (offset + 5) 0
    let mb_mapping :=
      if data = 0xFF00 then
        { mb_mapping with tab_coil_status := writeByte mb_mapping.tab_coil_status address ON }
      else if data = 0 then
        { mb_mapping with tab_coil_status := writeByte mb_mapping.tab_coil_status address OFF }
      else
        mb_mapping
    let response := fun p => if p < query_size then query.getD p 0 else response p
    (mb_mapping, response, query_size, t_id)
  else
    (mb_mapping, response, offset, t_id)

/-! ## Utils (bit helpers) -/

/-- Loop of `set_bits_from_bytes`: each destination cell receives ON or
OFF according to the corresponding source bit, the shift cycling 0 to
7. -/
def set_bits_from_bytes_loop (tab_byte : Nat → Nat) (address : Nat) :
    Nat → Nat → Nat → (Nat → Nat) → (Nat → Nat)
  | _, _, 0, dest => dest
  | i, shift, count + 1, dest =>
    let dest := writeByte dest i
      (if tab_byte ((i - address) / 8) &&& (1 <<< shift) ≠ 0 then ON else OFF)
    set_bits_from_bytes_loop tab_byte address (i + 1) ((shift + 1) % 8) count dest

/-- Unpacking of a packed bit table into coil cells as in
`set_bits_from_bytes` of `modbus.c`. -/
def set_bits_from_bytes (dest : Nat → Nat) (address nb_bits : Nat) (tab_byte : Nat → Nat) :
    Nat → Nat :=
  set_bits_from_bytes_loop tab_byte address address 0 nb_bits dest

/-- Loop of `get_byte_from_bits`: or the source cells into a byte,
LSB first. -/
def get_byte_from_bits_loop (src : Nat → Nat) (address : Nat) : Nat → Nat → Nat → Nat
  | _, value, 0 => value
  | i, value, n + 1 => get_byte_from_bits_loop src address (i + 1) (value ||| (src (address + i) <<< i)) n

/-- Byte read-back from coil cells as in `get_byte_from_bits` of
`modbus.c` (a bit count above 8 is clamped to 8 with a warning). -/
def get_byte_from_bits (src : Nat → Nat) (address nb_bits : Nat) : Nat :=
  let nb_bits := if nb_bits > 8 then 8 else nb_bits
  get_byte_from_bits_loop src address 0 0 nb_bits

/-! ## Master response classification -/

/-- Response classification as in `modbus_check_response` of
`modbus.c`. The call to `receive_msg` is I/O: its outcome is passed in
as `receive_ret` (the engine's return code), `response` (the received
bytes) and `response_size` (the received byte count). On a zero return
the CRC is checked and the value count decoded from the function code;
on a timeout with exactly an exception-sized frame received, a valid
CRC and a function byte equal to `0x80` plus the request function code
surface the negated exception code. -/
def modbus_check_response (mb_param : modbus_param_t) (query response : List Nat)
    (receive_ret : Int) (response_size : Nat) : Int :=
  let offset := mb_param.header_length
  if receive_ret = 0 then
    let c := check_crc16 mb_param response response_size
    if c ≠ 0 then c
    else
      let fc := response.getD (offset + 1) 0
      let response_size :=
        if fc = FC_READ_COIL_STATUS ∨ fc = FC_READ_INPUT_STATUS then
          response.getD (offset + 2) 0
        else if fc = FC_READ_HOLDING_REGISTERS ∨ fc = FC_READ_INPUT_REGISTERS then
          response.getD (offset + 2) 0 / 2
        else if fc = FC_FORCE_MULTIPLE_COILS ∨ fc = FC_PRESET_MULTIPLE_REGISTERS then
          (response.getD (offset + 4) 0 <<< 8) ||| response.getD (offset + 5) 0
        else if fc = FC_REPORT_SLAVE_ID then
          response_size
        else 1
      (response_size : Int)
  else if receive_ret = COMM_TIME_OUT ∧ response_size = offset + 3 + mb_param.checksum_size then
    let c := check_crc16 mb_param response response_size
    if c ≠ 0 then c
    else if 0x80 + query.getD (offset + 1) 0 = response.getD (offset + 1) 0 then
      if response.getD (offset + 2) 0 < NB_TAB_ERROR_MSG then
        -(response.getD (offset + 2) 0 : Int)
      else
        INVALID_EXCEPTION_CODE
    else
      (response_size : Int)
  else if receive_ret = COMM_TIME_OUT then
    COMM_TIME_OUT
  else
    receive_ret

/-! ## Proof toolbox: reference bit-level CRC and bitwise lemmas -/

/-- One reflected CRC-16 shift step with polynomial 0xA001: the
reference bit-level form of the lookup-table step of `crc16`. -/
def crcBitStep (c : Nat) : Nat :=
  if c &&& 1 = 1 then (c >>> 1) ^^^ 0xA001 else c >>> 1

/-- Reference byte step: xor the byte in, then eight shift steps. -/
def crcByteStep (c b : Nat) : Nat := crcBitStep^[8] (c ^^^ b)

/-- Reference CRC over a byte list from state c, in the standard bit
order (low byte of the state is the one xored with incoming bytes). -/
def crcStd (c : Nat) (l : List Nat) : Nat := l.foldl crcByteStep c

/-- Single-bit corruption: flip bit k of byte i of a frame
(specification-side helper for the CRC corruption property). -/
def flipBit (l : List Nat) (i k : Nat) : List Nat :=
  l.set i (l.getD i 0 ^^^ (1 <<< k))

/-- Big-endian decode of the quantity field of a six-byte request
header (bytes 4 and 5), as both sides of the protocol read it. -/
def qty_field (q : List Nat) : Nat := (q.getD 4 0 <<< 8) ||| q.getD 5 0

lemma testBit_false_of_lt {x n j : Nat} (h : x < 2 ^ n) (hj : n ≤ j) :
    x.testBit j = false :=
  Nat.testBit_lt_two_pow (lt_of_lt_of_le h (Nat.pow_le_pow_right (by norm_num) hj))

lemma xor_shiftRight_one (x y : Nat) : (x ^^^ y) >>> 1 = (x >>> 1) ^^^ (y >>> 1) := by
  apply Nat.eq_of_testBit_eq
  intro i
  simp [Nat.testBit_shiftRight, Nat.testBit_xor]

lemma xor_rot (A B C : Nat) : A ^^^ B ^^^ C = A ^^^ C ^^^ B := by
  rw [Nat.xor_assoc, Nat.xor_comm B C, ← Nat.xor_assoc]

lemma xor_left_comm (a b c : Nat) : a ^^^ (b ^^^ c) = b ^^^ (a ^^^ c) := by
  rw [← Nat.xor_assoc, Nat.xor_comm a b, Nat.xor_assoc]

lemma crcBitStep_xor (x y : Nat) :
    crcBitStep (x ^^^ y) = crcBitStep x ^^^ crcBitStep y := by
  unfold crcBitStep
  have hand : (x ^^^ y) &&& 1 = (x &&& 1) ^^^ (y &&& 1) := Nat.and_xor_distrib_right
  rw [Nat.and_one_is_mod x, Nat.and_one_is_mod y, Nat.and_one_is_mod (x ^^^ y)] at hand ⊢
  rcases Nat.mod_two_eq_zero_or_one x with hx | hx <;>
    rcases Nat.mod_two_eq_zero_or_one y with hy | hy <;>
    simp only [hx, hy] at hand ⊢ <;>
    simp only [hand] <;> norm_num [xor_shiftRight_one]
  all_goals simp [Nat.xor_assoc, Nat.xor_comm, xor_left_comm, Nat.xor_self,
    Nat.xor_zero, Nat.zero_xor, Nat.xor_cancel_left]

lemma crcBitStep_zero : crcBitStep 0 = 0 := by decide

lemma crcBitStep_lt {c : Nat} (h : c < 2 ^ 16) : crcBitStep c < 2 ^ 16 := by
  unfold crcBitStep
  have h1 : c >>> 1 < 2 ^ 16 := by
    rw [Nat.shiftRight_one]; omega
  split
  · exact Nat.xor_lt_two_pow h1 (by norm_num)
  · exact h1

lemma crcBitStep_inj {a b : Nat} (ha : a < 2 ^ 16) (hb : b < 2 ^ 16)
    (h : crcBitStep a = crcBitStep b) : a = b := by
  have ha2 : a >>> 1 < 2 ^ 15 := by
    rw [Nat.shiftRight_one]
    have : (2:Nat) ^ 16 = 2 * 2 ^ 15 := by norm_num
    omega
  have hb2 : b >>> 1 < 2 ^ 15 := by
    rw [Nat.shiftRight_one]
    have : (2:Nat) ^ 16 = 2 * 2 ^ 15 := by norm_num
    omega
  have hbit : ∀ x : Nat, x < 2 ^ 15 → (x ^^^ 0xA001).testBit 15 = true := by
    intro x hx
    rw [Nat.testBit_xor, Nat.testBit_lt_two_pow hx]
    decide
  have hbit2 : ∀ x : Nat, x < 2 ^ 15 → x.testBit 15 = false :=
    fun x hx => Nat.testBit_lt_two_pow hx
  unfold crcBitStep at h
  rw [Nat.and_one_is_mod, Nat.and_one_is_mod] at h
  rcases Nat.mod_two_eq_zero_or_one a with hma | hma <;>
    rcases Nat.mod_two_eq_zero_or_one b with hmb | hmb <;>
    simp only [hma, hmb] at h <;> norm_num at h
  · rw [Nat.shiftRight_one, Nat.shiftRight_one] at h; omega
  · exfalso
    have t1 := hbit2 _ ha2
    rw [h] at t1
    rw [hbit _ hb2] at t1
    exact Bool.true_eq_false ▸ t1.symm ▸ (by simp at t1)
  · exfalso
    have t1 := hbit _ ha2
    rw [h] at t1
    rw [hbit2 _ hb2] at t1
    simp at t1
  · have h' : a >>> 1 = b >>> 1 := by
      have := congrArg (· ^^^ 0xA001) h
      simpa [Nat.xor_cancel_right] using this
    rw [Nat.shiftRight_one, Nat.shiftRight_one] at h'; omega

lemma crcBitStep_iterate_lt (m : Nat) {c : Nat} (h : c < 2 ^ 16) :
    crcBitStep^[m] c < 2 ^ 16 := by
  induction m generalizing c with
  | zero => simpa using h
  | succ n ih =>
      rw [Function.iterate_succ_apply]
      exact ih (crcBitStep_lt h)

lemma crcBitStep_iterate_zero (m : Nat) : crcBitStep^[m] 0 = 0 := by
  induction m with
  | zero => rfl
  | succ n ih => rw [Function.iterate_succ_apply, crcBitStep_zero, ih]

lemma crcBitStep_iterate_xor (m x y : Nat) :
    crcBitStep^[m] (x ^^^ y) = crcBitStep^[m] x ^^^ crcBitStep^[m] y := by
  induction m generalizing x y with
  | zero => rfl
  | succ n ih =>
      rw [Function.iterate_succ_apply, Function.iterate_succ_apply,
        Function.iterate_succ_apply, crcBitStep_xor, ih]

lemma crcBitStep_iterate_inj (m : Nat) {a b : Nat} (ha : a < 2 ^ 16) (hb : b < 2 ^ 16)
    (h : crcBitStep^[m] a = crcBitStep^[m] b) : a = b := by
  induction m generalizing a b with
  | zero => simpa using h
  | succ n ih =>
      rw [Function.iterate_succ_apply', Function.iterate_succ_apply'] at h
      exact ih ha hb (crcBitStep_inj (crcBitStep_iterate_lt n ha) (crcBitStep_iterate_lt n hb) h)

lemma crcBitStep_iterate_ne_zero (m : Nat) {d : Nat} (hd : d ≠ 0) (hlt : d < 2 ^ 16) :
    crcBitStep^[m] d ≠ 0 := by
  intro h0
  apply hd
  apply crcBitStep_iterate_inj m hlt (by norm_num)
  rw [h0, crcBitStep_iterate_zero]

lemma crcBitStep_shiftLeft (x m : Nat) : crcBitStep (x <<< (m + 1)) = x <<< m := by
  unfold crcBitStep
  have h1 : x <<< (m + 1) &&& 1 = 0 := by
    rw [Nat.and_one_is_mod, Nat.shiftLeft_eq, pow_succ, ← Nat.mul_assoc]
    exact Nat.mul_mod_left _ 2
  rw [h1]
  norm_num
  rw [Nat.shiftLeft_eq, Nat.shiftLeft_eq, Nat.shiftRight_one, pow_succ, ← Nat.mul_assoc]
  exact Nat.mul_div_cancel _ (by norm_num)

lemma crcBitStep_iterate_shiftLeft (j x : Nat) : crcBitStep^[j] (x <<< j) = x := by
  induction j generalizing x with
  | zero => simp
  | succ n ih =>
      rw [Function.iterate_succ_apply, crcBitStep_shiftLeft, ih]

lemma or_eq_xor_of_lt (a b : Nat) (hb : b < 2 ^ 8) : (a <<< 8) ||| b = (a <<< 8) ^^^ b := by
  apply Nat.eq_of_testBit_eq
  intro j
  rw [Nat.testBit_or, Nat.testBit_xor, Nat.testBit_shiftLeft]
  by_cases hj : 8 ≤ j
  · rw [testBit_false_of_lt hb hj]
    simp
  · have : decide (j ≥ 8) = false := by simpa using hj
    rw [this]
    simp

lemma hi_recompose (x : Nat) : ((x >>> 8) <<< 8) ||| (x &&& 0xFF) = x := by
  apply Nat.eq_of_testBit_eq
  intro j
  rw [Nat.testBit_or, Nat.testBit_shiftLeft, Nat.testBit_and]
  by_cases hj : 8 ≤ j
  · have h255 : Nat.testBit 0xFF j = false := by
      have : (0xFF : Nat) = 2 ^ 8 - 1 := by norm_num
      rw [this, Nat.testBit_two_pow_sub_one]
      simpa using hj
    rw [h255, Nat.testBit_shiftRight]
    have : 8 + (j - 8) = j := by omega
    rw [this]
    simp [hj]
  · have h255 : Nat.testBit 0xFF j = true := by
      have : (0xFF : Nat) = 2 ^ 8 - 1 := by norm_num
      rw [this, Nat.testBit_two_pow_sub_one]
      simpa using hj
    have : decide (j ≥ 8) = false := by simpa using hj
    rw [h255, this]
    simp

lemma decomp_hi (a b : Nat) (hb : b < 2 ^ 8) : ((a <<< 8) ||| b) >>> 8 = a := by
  apply Nat.eq_of_testBit_eq
  intro j
  rw [Nat.testBit_shiftRight, Nat.testBit_or, Nat.testBit_shiftLeft,
    testBit_false_of_lt hb (by omega : 8 ≤ 8 + j)]
  have : decide (8 + j ≥ 8) = true := by simp
  rw [this]
  have : 8 + j - 8 = j := by omega
  rw [this]
  simp

lemma decomp_lo (a b : Nat) (hb : b < 2 ^ 8) : ((a <<< 8) ||| b) &&& 0xFF = b := by
  apply Nat.eq_of_testBit_eq
  intro j
  rw [Nat.testBit_and, Nat.testBit_or, Nat.testBit_shiftLeft]
  by_cases hj : 8 ≤ j
  · have h255 : Nat.testBit 0xFF j = false := by
      have : (0xFF : Nat) = 2 ^ 8 - 1 := by norm_num
      rw [this, Nat.testBit_two_pow_sub_one]
      simpa using hj
    rw [h255, testBit_false_of_lt hb hj]
    simp
  · have h255 : Nat.testBit 0xFF j = true := by
      have : (0xFF : Nat) = 2 ^ 8 - 1 := by norm_num
      rw [this, Nat.testBit_two_pow_sub_one]
      simpa using hj
    have hd : decide (j ≥ 8) = false := by simpa using hj
    rw [h255, hd]
    simp

lemma pair_or_inj {a a' b b' : Nat} (hb : b < 2 ^ 8) (hb' : b' < 2 ^ 8)
    (h : (a <<< 8) ||| b = (a' <<< 8) ||| b') : a = a' ∧ b = b' := by
  constructor
  · have := congrArg (· >>> 8) h
    simpa [decomp_hi _ _ hb, decomp_hi _ _ hb'] using this
  · have := congrArg (· &&& 0xFF) h
    simpa [decomp_lo _ _ hb, decomp_lo _ _ hb'] using this

set_option maxHeartbeats 1000000 in
set_option maxRecDepth 10000 in
lemma table_entries : ∀ i < 256,
    table_crc_hi.getD i 0 = crcBitStep^[8] i &&& 0xFF ∧
    table_crc_lo.getD i 0 = crcBitStep^[8] i >>> 8 := by decide

set_option maxRecDepth 2000 in
lemma table_crc_hi_getD_lt (i : Nat) : table_crc_hi.getD i 0 < 2 ^ 8 := by
  by_cases h : i < 256
  · obtain ⟨e1, _⟩ := table_entries i h
    rw [e1]
    have := Nat.and_le_right (n := crcBitStep^[8] i) (m := 0xFF)
    omega
  · rw [List.getD_eq_default]
    · norm_num
    · have : table_crc_hi.length = 256 := by rfl
      omega

set_option maxRecDepth 2000 in
lemma table_crc_lo_getD_lt (i : Nat) : table_crc_lo.getD i 0 < 2 ^ 8 := by
  by_cases h : i < 256
  · obtain ⟨_, e2⟩ := table_entries i h
    rw [e2]
    have hf : crcBitStep^[8] i < 2 ^ 16 := crcBitStep_iterate_lt 8 (by norm_num; omega)
    rw [Nat.shiftRight_eq_div_pow]
    norm_num at hf ⊢
    omega
  · rw [List.getD_eq_default]
    · norm_num
    · have : table_crc_lo.length = 256 := by rfl
      omega

lemma crc16Aux_lt : ∀ (l : List Nat) (crc_hi crc_lo : Nat), crc_hi < 2 ^ 8 → crc_lo < 2 ^ 8 →
    (crc16Aux crc_hi crc_lo l).1 < 2 ^ 8 ∧ (crc16Aux crc_hi crc_lo l).2 < 2 ^ 8 := by
  intro l
  induction l with
  | nil => intro hi lo hhi hlo; exact ⟨hhi, hlo⟩
  | cons b rest ih =>
      intro hi lo hhi hlo
      rw [crc16Aux]
      exact ih _ _ (Nat.xor_lt_two_pow hlo (table_crc_hi_getD_lt _)) (table_crc_lo_getD_lt _)

lemma crc_table_step (crc_hi crc_lo b : Nat) (hhi : crc_hi < 2 ^ 8) (hlo : crc_lo < 2 ^ 8)
    (hb : b < 2 ^ 8) :
    (table_crc_lo.getD (crc_hi ^^^ b) 0 <<< 8) ||| (crc_lo ^^^ table_crc_hi.getD (crc_hi ^^^ b) 0)
      = crcByteStep ((crc_lo <<< 8) ||| crc_hi) b := by
  have hi' : crc_hi ^^^ b < 256 := by
    have := Nat.xor_lt_two_pow hhi hb
    norm_num at this
    exact this
  obtain ⟨e1, e2⟩ := table_entries _ hi'
  rw [e1, e2]
  unfold crcByteStep
  set F := crcBitStep^[8] (crc_hi ^^^ b) with hFdef
  have hFlow : F &&& 0xFF < 2 ^ 8 := by
    have := Nat.and_le_right (n := F) (m := 0xFF)
    norm_num
    omega
  have hmix : crc_lo ^^^ (F &&& 0xFF) < 2 ^ 8 := Nat.xor_lt_two_pow hlo hFlow
  rw [or_eq_xor_of_lt crc_lo crc_hi hhi, Nat.xor_assoc (crc_lo <<< 8) crc_hi b,
    crcBitStep_iterate_xor 8 (crc_lo <<< 8) (crc_hi ^^^ b),
    crcBitStep_iterate_shiftLeft 8 crc_lo, ← hFdef,
    or_eq_xor_of_lt (F >>> 8) (crc_lo ^^^ (F &&& 0xFF)) hmix]
  conv_rhs => rw [show F = ((F >>> 8) <<< 8) ^^^ (F &&& 0xFF) by
    rw [← or_eq_xor_of_lt _ _ hFlow, hi_recompose]]
  rw [xor_left_comm]

lemma crc16Aux_crcStd : ∀ (l : List Nat), (∀ b ∈ l, b < 2 ^ 8) →
    ∀ crc_hi crc_lo : Nat, crc_hi < 2 ^ 8 → crc_lo < 2 ^ 8 →
    ((crc16Aux crc_hi crc_lo l).2 <<< 8) ||| (crc16Aux crc_hi crc_lo l).1
      = crcStd ((crc_lo <<< 8) ||| crc_hi) l := by
  intro l
  induction l with
  | nil => intro _ hi lo _ _; rfl
  | cons b rest ih =>
      intro hl hi lo hhi hlo
      have hb : b < 2 ^ 8 := hl b (by simp)
      have hrest : ∀ x ∈ rest, x < 2 ^ 8 := fun x hx => hl x (by simp [hx])
      rw [crc16Aux]
      show ((crc16Aux (lo ^^^ table_crc_hi.getD (hi ^^^ b) 0) (table_crc_lo.getD (hi ^^^ b) 0) rest).2 <<< 8) |||
        (crc16Aux (lo ^^^ table_crc_hi.getD (hi ^^^ b) 0) (table_crc_lo.getD (hi ^^^ b) 0) rest).1
        = crcStd ((lo <<< 8) ||| hi) (b :: rest)
      rw [ih hrest _ _ (Nat.xor_lt_two_pow hlo (table_crc_hi_getD_lt _)) (table_crc_lo_getD_lt _)]
      show crcStd _ rest = List.foldl crcByteStep ((lo <<< 8) ||| hi) (b :: rest)
      rw [List.foldl_cons]
      unfold crcStd
      rw [crc_table_step _ _ _ hhi hlo hb]

lemma crc16_full_lt (s : List Nat) : crc16 s s.length < 2 ^ 16 := by
  unfold crc16
  have h := crc16Aux_lt (s.take s.length) 0xFF 0xFF (by norm_num) (by norm_num)
  apply Nat.or_lt_two_pow
  · rw [Nat.shiftLeft_eq]
    have := h.1
    norm_num at this ⊢
    omega
  · have := h.2
    norm_num at this ⊢
    omega

lemma crc16_eq_swap_crcStd (s : List Nat) (hs : ∀ b ∈ s, b < 2 ^ 8) :
    ((crc16Aux 0xFF 0xFF s).2 <<< 8) ||| (crc16Aux 0xFF 0xFF s).1 = crcStd 0xFFFF s := by
  have := crc16Aux_crcStd s hs 0xFF 0xFF (by norm_num) (by norm_num)
  simpa using this

lemma crc16_ne_of_crcStd_ne {s s' : List Nat} (hs : ∀ b ∈ s, b < 2 ^ 8)
    (hs' : ∀ b ∈ s', b < 2 ^ 8) (h : crcStd 0xFFFF s ≠ crcStd 0xFFFF s') :
    crc16 s s.length ≠ crc16 s' s'.length := by
  intro heq
  apply h
  unfold crc16 at heq
  rw [List.take_length, List.take_length] at heq
  have b1 := crc16Aux_lt s 0xFF 0xFF (by norm_num) (by norm_num)
  have b2 := crc16Aux_lt s' 0xFF 0xFF (by norm_num) (by norm_num)
  obtain ⟨e1, e2⟩ := pair_or_inj b1.2 b2.2 heq
  rw [← crc16_eq_swap_crcStd s hs, ← crc16_eq_swap_crcStd s' hs', e1, e2]

lemma crcByteStep_xor_state (c d b : Nat) :
    crcByteStep (c ^^^ d) b = crcByteStep c b ^^^ crcBitStep^[8] d := by
  unfold crcByteStep
  rw [xor_rot c d b, crcBitStep_iterate_xor 8 (c ^^^ b) d]

lemma crcStd_xor_state (l : List Nat) : ∀ c d : Nat,
    crcStd (c ^^^ d) l = crcStd c l ^^^ crcBitStep^[8 * l.length] d := by
  induction l with
  | nil => intro c d; simp [crcStd]
  | cons b rest ih =>
      intro c d
      show crcStd (crcByteStep (c ^^^ d) b) rest = crcStd (crcByteStep c b) rest ^^^ _
      rw [crcByteStep_xor_state, ih]
      congr 1

lemma crcStd_set_flip : ∀ (l : List Nat) (c i e : Nat), i < l.length →
    crcStd c (l.set i (l.getD i 0 ^^^ e))
      = crcStd c l ^^^ crcBitStep^[8 * (l.length - i)] e := by
  intro l
  induction l with
  | nil => intro c i e h; simp at h
  | cons b rest ih =>
      intro c i e h
      cases i with
      | zero =>
          show crcStd (crcByteStep c (b ^^^ e)) rest = _
          have hB : crcByteStep c (b ^^^ e) = crcByteStep c b ^^^ crcBitStep^[8] e := by
            unfold crcByteStep
            rw [← Nat.xor_assoc c b e, crcBitStep_iterate_xor 8 (c ^^^ b) e]
          rw [hB, crcStd_xor_state]
          show crcStd c (b :: rest) ^^^ _ = _
          congr 1
      | succ n =>
          show crcStd (crcByteStep c b) (rest.set n (rest.getD n 0 ^^^ e)) = _
          rw [ih (crcByteStep c b) n e (by simpa using h)]
          have hlen : (b :: rest).length - (n + 1) = rest.length - n := by simp
          rw [hlen]
          rfl


lemma crc16_prefix (s t : List Nat) : crc16 (s ++ t) s.length = crc16 s s.length := by
  unfold crc16
  rw [List.take_left, List.take_length]

lemma check_crc16_roundtrip (s : List Nat) :
    check_crc16 mb_param_rtu (modbus_send mb_param_rtu s) (s.length + 2) = 0 := by
  show check_crc16 mb_param_rtu
    (s ++ [crc16 s s.length >>> 8, crc16 s s.length &&& 0x00FF]) (s.length + 2) = 0
  unfold check_crc16
  have h1 : s.length + 2 - 2 = s.length := by omega
  have h2 : s.length + 2 - 1 = s.length + 1 := by omega
  rw [h1, h2]
  have hcalc : crc16 (s ++ [crc16 s s.length >>> 8, crc16 s s.length &&& 0x00FF]) s.length
      = crc16 s s.length := crc16_prefix _ _
  have hg0 : (s ++ [crc16 s s.length >>> 8, crc16 s s.length &&& 0x00FF]).getD s.length 0
      = crc16 s s.length >>> 8 := by
    rw [List.getD_append_right _ _ _ _ (le_refl _)]
    simp
  have hg1 : (s ++ [crc16 s s.length >>> 8, crc16 s s.length &&& 0x00FF]).getD (s.length + 1) 0
      = crc16 s s.length &&& 0x00FF := by
    rw [List.getD_append_right _ _ _ _ (by omega)]
    have : s.length + 1 - s.length = 1 := by omega
    rw [this]
    simp
  rw [hcalc, hg0, hg1, hi_recompose]
  simp [mb_param_rtu]

lemma check_crc16_flip (s : List Nat) (hs : ∀ b ∈ s, b < 2 ^ 8) (i k : Nat)
    (hi : i < s.length + 2) (hk : k < 8) :
    check_crc16 mb_param_rtu (flipBit (modbus_send mb_param_rtu s) i k) (s.length + 2)
      = INVALID_CRC := by
  have hbit_lt : (1 <<< k) < 2 ^ 8 := by
    rw [Nat.one_shiftLeft]
    exact Nat.pow_lt_pow_right (by norm_num) hk
  have hbit_pos : 0 < 1 <<< k := by
    rw [Nat.one_shiftLeft]
    exact Nat.two_pow_pos k
  have hsend : modbus_send mb_param_rtu s
      = s ++ [crc16 s s.length >>> 8, crc16 s s.length &&& 0x00FF] := rfl
  set c := crc16 s s.length with hc
  have ht1lt : c &&& 0x00FF < 2 ^ 8 := by
    have := Nat.and_le_right (n := c) (m := 0xFF)
    norm_num
    omega
  have h1 : s.length + 2 - 2 = s.length := by omega
  have h2 : s.length + 2 - 1 = s.length + 1 := by omega
  rcases lt_trichotomy i s.length with hcase | hcase | hcase
  · -- the flipped bit is inside the message body
    have hgetD : (s ++ [c >>> 8, c &&& 0x00FF]).getD i 0 = s.getD i 0 :=
      List.getD_append _ _ _ _ hcase
    have hset : flipBit (s ++ [c >>> 8, c &&& 0x00FF]) i k
        = s.set i (s.getD i 0 ^^^ (1 <<< k)) ++ [c >>> 8, c &&& 0x00FF] := by
      unfold flipBit
      rw [hgetD, List.set_append, if_pos hcase]
    rw [hsend, hset]
    set s' := s.set i (s.getD i 0 ^^^ (1 <<< k)) with hsdef
    have hlen' : s'.length = s.length := List.length_set s i _
    unfold check_crc16
    rw [h1, h2]
    have hcalc : crc16 (s' ++ [c >>> 8, c &&& 0x00FF]) s.length = crc16 s' s'.length := by
      rw [← hlen', crc16_prefix]
    have hg0 : (s' ++ [c >>> 8, c &&& 0x00FF]).getD s.length 0 = c >>> 8 := by
      rw [← hlen', List.getD_append_right _ _ _ _ (le_refl _)]
      simp
    have hg1 : (s' ++ [c >>> 8, c &&& 0x00FF]).getD (s.length + 1) 0 = c &&& 0x00FF := by
      rw [List.getD_append_right _ _ _ _ (by omega)]
      have : s.length + 1 - s'.length = 1 := by omega
      rw [this]
      simp
    rw [hcalc, hg0, hg1, hi_recompose]
    have hsbytes : ∀ b ∈ s', b < 2 ^ 8 := by
      intro b hb
      rcases List.mem_or_eq_of_mem_set hb with h | h
      · exact hs b h
      · subst h
        apply Nat.xor_lt_two_pow _ hbit_lt
        apply hs
        rw [List.getD_eq_getElem s 0 hcase]
        exact List.getElem_mem hcase
    have hne : crc16 s' s'.length ≠ c := by
      rw [hc]
      apply crc16_ne_of_crcStd_ne hsbytes hs
      rw [hsdef, crcStd_set_flip s 0xFFFF i (1 <<< k) hcase]
      intro heq
      have hzero : crcBitStep^[8 * (s.length - i)] (1 <<< k) = 0 := by
        have hcl := (Nat.xor_cancel_left (crcStd 0xFFFF s)
          (crcBitStep^[8 * (s.length - i)] (1 <<< k))).symm
        rw [heq, Nat.xor_self] at hcl
        exact hcl
      exact crcBitStep_iterate_ne_zero _ (by omega)
        (lt_trans hbit_lt (by norm_num)) hzero
    simp [mb_param_rtu, hne]
  · -- the flipped bit is in the first trailer byte
    have hgetD : (s ++ [c >>> 8, c &&& 0x00FF]).getD i 0 = c >>> 8 := by
      rw [hcase, List.getD_append_right _ _ _ _ (le_refl _)]
      simp
    have hset : flipBit (s ++ [c >>> 8, c &&& 0x00FF]) i k
        = s ++ [(c >>> 8) ^^^ (1 <<< k), c &&& 0x00FF] := by
      unfold flipBit
      rw [hgetD, List.set_append, if_neg (by omega)]
      rw [hcase]
      simp
    rw [hsend, hset]
    unfold check_crc16
    rw [h1, h2]
    have hcalc : crc16 (s ++ [(c >>> 8) ^^^ (1 <<< k), c &&& 0x00FF]) s.length = c :=
      crc16_prefix _ _
    have hg0 : (s ++ [(c >>> 8) ^^^ (1 <<< k), c &&& 0x00FF]).getD s.length 0
        = (c >>> 8) ^^^ (1 <<< k) := by
      rw [List.getD_append_right _ _ _ _ (le_refl _)]
      simp
    have hg1 : (s ++ [(c >>> 8) ^^^ (1 <<< k), c &&& 0x00FF]).getD (s.length + 1) 0
        = c &&& 0x00FF := by
      rw [List.getD_append_right _ _ _ _ (by omega)]
      have : s.length + 1 - s.length = 1 := by omega
      rw [this]
      simp
    rw [hcalc, hg0, hg1]
    have hne : c ≠ (((c >>> 8) ^^^ (1 <<< k)) <<< 8) ||| (c &&& 0x00FF) := by
      intro heq
      have hc2 : ((c >>> 8) <<< 8) ||| (c &&& 0x00FF)
          = (((c >>> 8) ^^^ (1 <<< k)) <<< 8) ||| (c &&& 0x00FF) := by
        rw [hi_recompose]
        exact heq
      obtain ⟨e1, _⟩ := pair_or_inj ht1lt ht1lt hc2
      have hz := (Nat.xor_cancel_left (c >>> 8) (1 <<< k)).symm
      rw [← e1, Nat.xor_self] at hz
      omega
    simp [mb_param_rtu, hne]
  · -- the flipped bit is in the second trailer byte
    have hieq : i = s.length + 1 := by omega
    have hgetD : (s ++ [c >>> 8, c &&& 0x00FF]).getD i 0 = c &&& 0x00FF := by
      rw [hieq, List.getD_append_right _ _ _ _ (by omega)]
      have : s.length + 1 - s.length = 1 := by omega
      rw [this]
      simp
    have hset : flipBit (s ++ [c >>> 8, c &&& 0x00FF]) i k
        = s ++ [c >>> 8, (c &&& 0x00FF) ^^^ (1 <<< k)] := by
      unfold flipBit
      rw [hgetD, List.set_append, if_neg (by omega)]
      rw [hieq]
      have : s.length + 1 - s.length = 1 := by omega
      rw [this]
      simp
    rw [hsend, hset]
    unfold check_crc16
    rw [h1, h2]
    have hcalc : crc16 (s ++ [c >>> 8, (c &&& 0x00FF) ^^^ (1 <<< k)]) s.length = c :=
      crc16_prefix _ _
    have hg0 : (s ++ [c >>> 8, (c &&& 0x00FF) ^^^ (1 <<< k)]).getD s.length 0 = c >>> 8 := by
      rw [List.getD_append_right _ _ _ _ (le_refl _)]
      simp
    have hg1 : (s ++ [c >>> 8, (c &&& 0x00FF) ^^^ (1 <<< k)]).getD (s.length + 1) 0
        = (c &&& 0x00FF) ^^^ (1 <<< k) := by
      rw [List.getD_append_right _ _ _ _ (by omega)]
      have : s.length + 1 - s.length = 1 := by omega
      rw [this]
      simp
    rw [hcalc, hg0, hg1]
    have hne : c ≠ ((c >>> 8) <<< 8) ||| ((c &&& 0x00FF) ^^^ (1 <<< k)) := by
      intro heq
      have hc2 : ((c >>> 8) <<< 8) ||| (c &&& 0x00FF)
          = ((c >>> 8) <<< 8) ||| ((c &&& 0x00FF) ^^^ (1 <<< k)) := by
        rw [hi_recompose]
        exact heq
      obtain ⟨_, e2⟩ := pair_or_inj ht1lt (Nat.xor_lt_two_pow ht1lt hbit_lt) hc2
      have hz := (Nat.xor_cancel_left (c &&& 0x00FF) (1 <<< k)).symm
      rw [← e2, Nat.xor_self] at hz
      omega
    simp [mb_param_rtu, hne]

/-! ## Claim theorems -/

set_option maxRecDepth 10000 in
/-- Claim C2, counterexample: the claim as stated fails. For the byte
string s = [0x00] the crc16 return value is 0xBF40; appending it LOW
byte first gives the frame [0x00, 0x40, 0xBF], which check_crc16
rejects with INVALID_CRC (nonzero), and modbus_send does not produce
that frame: it appends the HIGH byte of the crc16 return value first. -/
theorem c2_crc_low_first_counterexample :
    check_crc16 mb_param_rtu
        ([0x00] ++ [crc16 [0x00] 1 &&& 0x00FF, crc16 [0x00] 1 >>> 8]) 3 = INVALID_CRC ∧
    INVALID_CRC ≠ 0 ∧
    modbus_send mb_param_rtu [0x00]
        ≠ [0x00] ++ [crc16 [0x00] 1 &&& 0x00FF, crc16 [0x00] 1 >>> 8] := by
  refine ⟨by decide, by decide, by decide⟩

/-- Claim C2 (amended): for every byte string s, the RTU frame formed
by appending the crc16 value serialized HIGH byte first, LOW byte
second — which is exactly the trailer modbus_send appends — is accepted
by check_crc16 (returns 0), and flipping any single bit of such a frame
makes check_crc16 return INVALID_CRC. -/
theorem c2_crc_roundtrip_and_flip (s : List Nat) (hs : ∀ b ∈ s, b < 2 ^ 8) :
    check_crc16 mb_param_rtu (modbus_send mb_param_rtu s) (s.length + 2) = 0 ∧
    ∀ i k : Nat, i < s.length + 2 → k < 8 →
      check_crc16 mb_param_rtu (flipBit (modbus_send mb_param_rtu s) i k) (s.length + 2)
        = INVALID_CRC :=
  ⟨check_crc16_roundtrip s, fun i k hi hk => check_crc16_flip s hs i k hi hk⟩

set_option maxRecDepth 10000 in
/-- Witness for claim C2 at the concrete message [0x11, 0x03]. -/
theorem c2_crc_roundtrip_and_flip_witness :
    check_crc16 mb_param_rtu (modbus_send mb_param_rtu [0x11, 0x03]) 4 = 0 ∧
    check_crc16 mb_param_rtu (flipBit (modbus_send mb_param_rtu [0x11, 0x03]) 0 0) 4
      = INVALID_CRC := by
  have h := c2_crc_roundtrip_and_flip [0x11, 0x03] (by decide)
  exact ⟨h.1, h.2 0 0 (by decide) (by decide)⟩


/-- Claim C1: for every Modbus exception code k in 0x00 to 0x0B, a peer
reply consisting of the 3-byte exception PDU [unit, 0x80 + fc, k] plus
RTU CRC, surfaced by the receive engine as a timeout with exactly
offset + 3 + checksum_size bytes received, makes modbus_check_response
return the integer -k. -/
theorem c1_exception_capture (unit fc k : Nat) (query : List Nat)
    (hk : k ≤ 0x0B) (hfc : fc < 0x80) (hq : query.getD 1 0 = fc) :
    modbus_check_response mb_param_rtu query
      (modbus_send mb_param_rtu [unit, 0x80 + fc, k]) COMM_TIME_OUT 5
      = -(k : Int) := by
  have hcrc : check_crc16 mb_param_rtu (modbus_send mb_param_rtu [unit, 0x80 + fc, k]) 5 = 0 := by
    have h := check_crc16_roundtrip [unit, 0x80 + fc, k]
    simpa using h
  have hfcbyte : (modbus_send mb_param_rtu [unit, 0x80 + fc, k]).getD 1 0 = 0x80 + fc := by
    show ([unit, 0x80 + fc, k] ++ _).getD 1 0 = 0x80 + fc
    rw [List.getD_append _ _ _ _ (by norm_num)]
    rfl
  have hkbyte : (modbus_send mb_param_rtu [unit, 0x80 + fc, k]).getD 2 0 = k := by
    show ([unit, 0x80 + fc, k] ++ _).getD 2 0 = k
    rw [List.getD_append _ _ _ _ (by norm_num)]
    rfl
  unfold modbus_check_response
  rw [if_neg (by norm_num [COMM_TIME_OUT])]
  rw [if_pos ⟨rfl, by norm_num [mb_param_rtu, CHECKSUM_SIZE_RTU, HEADER_LENGTH_RTU]⟩]
  simp only [mb_param_rtu, HEADER_LENGTH_RTU, CHECKSUM_SIZE_RTU] at hcrc hfcbyte hkbyte ⊢
  rw [hcrc]
  simp only [Nat.zero_add, hfcbyte, hkbyte, hq]
  rw [if_pos trivial]
  rw [if_pos (show k < NB_TAB_ERROR_MSG by norm_num [NB_TAB_ERROR_MSG]; omega)]
  simp

/-- Witness for claim C1: request fc 0x01, exception code 0x02
(illegal data address) gives -2. -/
theorem c1_exception_capture_witness :
    modbus_check_response mb_param_rtu [0x11, 0x01]
      (modbus_send mb_param_rtu [0x11, 0x81, 0x02]) COMM_TIME_OUT 5 = -2 := by
  have h := c1_exception_capture 0x11 0x01 0x02 [0x11, 0x01] (by norm_num) (by norm_num) rfl
  exact h

/-- Claim C3: compute_response_size returns header_length plus
checksum_size plus: 3 + ceil(qty/8) for function codes 0x01 and 0x02;
3 + 2*qty for 0x03 and 0x04; 4 for 0x07; and 6 for every other
function code. -/
theorem c3_expected_response_size (mb_param : modbus_param_t) (query : List Nat) (fc qty : Nat)
    (hfc : query.getD (mb_param.header_length + 1) 0 = fc)
    (hqty : (query.getD (mb_param.header_length + 4) 0 <<< 8) |||
        query.getD (mb_param.header_length + 5) 0 = qty) :
    compute_response_size mb_param query
      = mb_param.header_length + mb_param.checksum_size +
        (if fc = 0x01 ∨ fc = 0x02 then 3 + (qty + 7) / 8
         else if fc = 0x03 ∨ fc = 0x04 then 3 + 2 * qty
         else if fc = 0x07 then 4
         else 6) := by
  unfold compute_response_size
  simp only [hfc, hqty, FC_READ_COIL_STATUS, FC_READ_INPUT_STATUS,
    FC_READ_HOLDING_REGISTERS, FC_READ_INPUT_REGISTERS, FC_READ_EXCEPTION_STATUS]
  split_ifs <;> omega

/-- Witness for claim C3: a Read Coils request for 10 coils in RTU
mode expects a response of 0 + 2 + 3 + 2 = 7 bytes. -/
theorem c3_expected_response_size_witness :
    compute_response_size mb_param_rtu [0x11, 0x01, 0x00, 0x13, 0x00, 0x0A] = 7 := by
  have h := c3_expected_response_size mb_param_rtu
    [0x11, 0x01, 0x00, 0x13, 0x00, 0x0A] 0x01 0x0A rfl rfl
  simpa using h

/-- Claim C4 (code bug): the progressive receive engine extends the
frame by 4 bytes only for function codes up to 0x05
(FC_FORCE_SINGLE_COIL); at function code 0x06 (Write Single Register,
also a single-write with 4 bytes after the function code) it extends
by 0, truncating the query. 0x0F and 0x10 get 5 as specified. -/
theorem c4_query_size_header_eval :
    compute_query_size_header 0x05 = 4 ∧
    compute_query_size_header 0x06 = 0 ∧
    compute_query_size_header 0x0F = 5 ∧
    compute_query_size_header 0x10 = 5 := by
  refine ⟨by decide, by decide, by decide, by decide⟩

lemma next_t_id_iterate (n : Nat) (h : n ≤ 65535) : next_t_id^[n] 0 = n := by
  induction n with
  | zero => rfl
  | succ m ih =>
      rw [Function.iterate_succ_apply', ih (by omega)]
      unfold next_t_id
      rw [if_pos (by omega)]

lemma build_query_packet_tcp_id_bytes (t slave fn sa cnt : Nat) (packet : Nat → Nat) :
    (build_query_packet_tcp t slave fn sa cnt packet).2.1 0 = next_t_id t >>> 8 ∧
    (build_query_packet_tcp t slave fn sa cnt packet).2.1 1 = next_t_id t &&& 0x00FF := by
  unfold build_query_packet_tcp writeByte
  norm_num

/-- Claim C9: the MBAP transaction identifier written by
build_query_packet_tcp equals the advanced counter; for a counter
below 0xFFFF the emitted identifier is the previous value plus one,
after a call emitted 0xFFFF (counter state 0xFFFF) the next call emits
0, and iterating the advance 0xFFFF times from a fresh counter reaches
0xFFFF, the next advance giving 0. -/
theorem c9_transaction_id (t slave fn sa cnt : Nat) (packet : Nat → Nat) :
    ((build_query_packet_tcp t slave fn sa cnt packet).2.1 0 <<< 8) |||
        (build_query_packet_tcp t slave fn sa cnt packet).2.1 1
      = (build_query_packet_tcp t slave fn sa cnt packet).1 ∧
    (t < 0xFFFF →
      ((build_query_packet_tcp t slave fn sa cnt packet).2.1 0 <<< 8) |||
        (build_query_packet_tcp t slave fn sa cnt packet).2.1 1 = t + 1) ∧
    (t = 0xFFFF →
      ((build_query_packet_tcp t slave fn sa cnt packet).2.1 0 <<< 8) |||
        (build_query_packet_tcp t slave fn sa cnt packet).2.1 1 = 0) ∧
    next_t_id^[0xFFFF] 0 = 0xFFFF ∧
    next_t_id^[0x10000] 0 = 0 := by
  obtain ⟨h0, h1⟩ := build_query_packet_tcp_id_bytes t slave fn sa cnt packet
  have hdec : ((build_query_packet_tcp t slave fn sa cnt packet).2.1 0 <<< 8) |||
      (build_query_packet_tcp t slave fn sa cnt packet).2.1 1 = next_t_id t := by
    rw [h0, h1, hi_recompose]
  have hfst : (build_query_packet_tcp t slave fn sa cnt packet).1 = next_t_id t := rfl
  refine ⟨by rw [hdec, hfst], ?_, ?_, next_t_id_iterate 65535 (le_refl _), ?_⟩
  · intro ht
    rw [hdec]
    unfold next_t_id
    rw [if_pos ht]
  · intro ht
    rw [hdec, ht]
    rfl
  · have : (0x10000 : Nat) = 65535 + 1 := by norm_num
    rw [this, Function.iterate_succ_apply', next_t_id_iterate 65535 (le_refl _)]
    rfl

/-- Witness for claim C9: from counter state 3 the emitted identifier
is 4. -/
theorem c9_transaction_id_witness :
    ((build_query_packet_tcp 3 0x11 0x03 0 10 (fun _ => 0)).2.1 0 <<< 8) |||
      (build_query_packet_tcp 3 0x11 0x03 0 10 (fun _ => 0)).2.1 1 = 4 :=
  (c9_transaction_id 3 0x11 0x03 0 10 (fun _ => 0)).2.1 (by norm_num)

lemma qty_field_build (s f a v : Nat) : qty_field (build_query_packet_rtu s f a v) = v := by
  show ((v >>> 8) <<< 8) ||| (v &&& 0x00FF) = v
  exact hi_recompose v

/-- Claim C10: whatever integer the caller passes, the value field of
the Write Single Coil request built by force_single_coil is 0xFF00 for
every nonzero state and 0x0000 for state 0. -/
theorem c10_force_single_coil_value (slave coil_addr state : Int) :
    qty_field (force_single_coil_query slave coil_addr state)
      = if state ≠ 0 then 0xFF00 else 0 := by
  unfold force_single_coil_query set_single_query
  by_cases h : state = 0
  · rw [if_neg (by simp [h]), if_neg (by simp [h]), qty_field_build, h]
    rfl
  · rw [if_pos h, if_pos h, qty_field_build]
    rfl

lemma qty_field_build_append (s f a v : Nat) (rest : List Nat) :
    qty_field (build_query_packet_rtu s f a v ++ rest) = v := by
  unfold qty_field
  rw [List.getD_append _ _ _ _ (by norm_num [build_query_packet_rtu]),
    List.getD_append _ _ _ _ (by norm_num [build_query_packet_rtu])]
  show ((v >>> 8) <<< 8) ||| (v &&& 0x00FF) = v
  exact hi_recompose v

lemma toU16_small {v : Int} (h0 : 0 ≤ v) (h1 : v < 65536) : toU16 v = v.toNat := by
  unfold toU16
  omega

/-- Claim C7: the master clamps over-limit quantities with
less-than-or-equal semantics: read_holding_registers and
read_input_registers clamp the on-the-wire quantity to 125,
preset_multiple_registers to 123 and force_multiple_coils to 1968,
while in-range quantities pass unchanged; in particular a
read_holding_registers call with count 200 produces a single request
whose quantity field is 125. -/
theorem c7_quantity_clamping (slave start_addr count : Int) (data_src : Nat → Nat) :
    ((count > 125 → qty_field (read_holding_registers_query slave start_addr count) = 125) ∧
     (0 ≤ count → count ≤ 125 →
       qty_field (read_holding_registers_query slave start_addr count) = count.toNat)) ∧
    ((count > 125 → qty_field (read_input_registers_query slave start_addr count) = 125) ∧
     (0 ≤ count → count ≤ 125 →
       qty_field (read_input_registers_query slave start_addr count) = count.toNat)) ∧
    ((count > 123 →
       qty_field (preset_multiple_registers_query slave start_addr count data_src) = 123) ∧
     (0 ≤ count → count ≤ 123 →
       qty_field (preset_multiple_registers_query slave start_addr count data_src)
         = count.toNat)) ∧
    ((count > 1968 →
       qty_field (force_multiple_coils_query slave start_addr count data_src) = 1968) ∧
     (0 ≤ count → count ≤ 1968 →
       qty_field (force_multiple_coils_query slave start_addr count data_src) = count.toNat)) ∧
    qty_field (read_holding_registers_query slave start_addr 200) = 125 := by
  refine ⟨⟨?_, ?_⟩, ⟨?_, ?_⟩, ⟨?_, ?_⟩, ⟨?_, ?_⟩, ?_⟩
  · intro h
    unfold read_holding_registers_query
    rw [if_pos (by norm_num [MAX_READ_HOLD_REGS]; omega), qty_field_build]
    rfl
  · intro h0 h1
    unfold read_holding_registers_query
    rw [if_neg (by norm_num [MAX_READ_HOLD_REGS]; omega), qty_field_build]
    exact toU16_small h0 (by omega)
  · intro h
    unfold read_input_registers_query
    rw [if_pos (by norm_num [MAX_READ_INPUT_REGS]; omega), qty_field_build]
    rfl
  · intro h0 h1
    unfold read_input_registers_query
    rw [if_neg (by norm_num [MAX_READ_INPUT_REGS]; omega), qty_field_build]
    exact toU16_small h0 (by omega)
  · intro h
    unfold preset_multiple_registers_query
    rw [if_pos (by norm_num [MAX_WRITE_REGS]; omega)]
    dsimp only
    rw [List.append_assoc, qty_field_build_append]
    rfl
  · intro h0 h1
    unfold preset_multiple_registers_query
    rw [if_neg (by norm_num [MAX_WRITE_REGS]; omega)]
    dsimp only
    rw [List.append_assoc, qty_field_build_append]
    exact toU16_small h0 (by omega)
  · intro h
    unfold force_multiple_coils_query
    rw [if_pos (by norm_num [MAX_WRITE_COILS]; omega)]
    dsimp only
    rw [List.append_assoc, qty_field_build_append]
    rfl
  · intro h0 h1
    unfold force_multiple_coils_query
    rw [if_neg (by norm_num [MAX_WRITE_COILS]; omega)]
    dsimp only
    rw [List.append_assoc, qty_field_build_append]
    exact toU16_small h0 (by omega)
  · unfold read_holding_registers_query
    rw [if_pos (by norm_num [MAX_READ_HOLD_REGS]), qty_field_build]
    rfl

/-- Witness for claim C7: count 200 is clamped to a quantity field of
125, and count 100 passes unchanged. -/
theorem c7_quantity_clamping_witness :
    qty_field (read_holding_registers_query 0x11 0 200) = 125 ∧
    qty_field (read_holding_registers_query 0x11 0 100) = 100 := by
  refine ⟨(c7_quantity_clamping 0x11 0 200 (fun _ => 0)).1.1 (by norm_num), ?_⟩
  have h := (c7_quantity_clamping 0x11 0 100 (fun _ => 0)).1.2 (by norm_num) (by norm_num)
  simpa using h

/-- Claim C5 (code bug): manage_query performs no address range check.
For a Write Single Coil request at address 16 against a map whose coil
table length is declared as 8, the write goes through (the coil cell
at out-of-range index 16 is set to ON — in the C code this is an
out-of-bounds array write) and the response is a byte-for-byte echo of
the request with function byte 0x05, not an exception 0x02 response. -/
theorem c5_no_address_range_check_eval :
    (manage_query mb_param_rtu [0x11, 0x05, 0x00, 0x10, 0xFF, 0x00] 6
        ⟨8, 8, 8, 8, (fun _ => 0), (fun _ => 0), (fun _ => 0), (fun _ => 0)⟩
        (fun _ => 0) 0).1.tab_coil_status 16 = ON ∧
    (manage_query mb_param_rtu [0x11, 0x05, 0x00, 0x10, 0xFF, 0x00] 6
        ⟨8, 8, 8, 8, (fun _ => 0), (fun _ => 0), (fun _ => 0), (fun _ => 0)⟩
        (fun _ => 0) 0).2.2.1 = 6 ∧
    (∀ p, p < 6 →
      (manage_query mb_param_rtu [0x11, 0x05, 0x00, 0x10, 0xFF, 0x00] 6
          ⟨8, 8, 8, 8, (fun _ => 0), (fun _ => 0), (fun _ => 0), (fun _ => 0)⟩
          (fun _ => 0) 0).2.1 p
        = [0x11, 0x05, 0x00, 0x10, 0xFF, 0x00].getD p 0) := by
  refine ⟨by decide, by decide, by decide⟩

/-- Claim C6 (code bug): for a Write Single Coil request whose value
field is neither 0xFF00 nor 0x0000 (here 0x1234), manage_query leaves
the register map completely unchanged, but responds with a
byte-for-byte echo of the request (function byte 0x05) instead of an
exception 0x03 response. -/
theorem c6_write_single_coil_illegal_value_eval :
    (manage_query mb_param_rtu [0x11, 0x05, 0x00, 0x03, 0x12, 0x34] 6
        ⟨8, 8, 8, 8, (fun _ => 0), (fun _ => 0), (fun _ => 0), (fun _ => 0)⟩
        (fun _ => 0) 0).1
      = ⟨8, 8, 8, 8, (fun _ => 0), (fun _ => 0), (fun _ => 0), (fun _ => 0)⟩ ∧
    (manage_query mb_param_rtu [0x11, 0x05, 0x00, 0x03, 0x12, 0x34] 6
        ⟨8, 8, 8, 8, (fun _ => 0), (fun _ => 0), (fun _ => 0), (fun _ => 0)⟩
        (fun _ => 0) 0).2.2.1 = 6 ∧
    (∀ p, p < 6 →
      (manage_query mb_param_rtu [0x11, 0x05, 0x00, 0x03, 0x12, 0x34] 6
          ⟨8, 8, 8, 8, (fun _ => 0), (fun _ => 0), (fun _ => 0), (fun _ => 0)⟩
          (fun _ => 0) 0).2.1 p
        = [0x11, 0x05, 0x00, 0x03, 0x12, 0x34].getD p 0) := by
  refine ⟨rfl, by decide, by decide⟩

lemma and_shift_ne_zero_iff (x s : Nat) : x &&& (1 <<< s) ≠ 0 ↔ x.testBit s = true := by
  rw [Nat.one_shiftLeft, Nat.and_two_pow]
  cases h : x.testBit s <;> simp [h]

lemma testBit_zero_of_lt_two (v : Nat) (h : v < 2) : v.testBit 0 = decide (v = 1) := by
  interval_cases v <;> decide

lemma rios_loop_spec (count : Nat) :
    ∀ (tab : Nat → Nat) (i off shift byte : Nat) (resp : Nat → Nat),
    shift < 8 → byte < 2 ^ shift → (∀ j, j < count → tab (i + j) < 2) →
    ((response_io_status_loop tab i count ⟨resp, off, shift, byte⟩).offset
        = off + (shift + count) / 8 ∧
     (response_io_status_loop tab i count ⟨resp, off, shift, byte⟩).shift
        = (shift + count) % 8) ∧
    (∀ j, j < count →
      ((flushRio (response_io_status_loop tab i count ⟨resp, off, shift, byte⟩))
          (off + (shift + j) / 8)).testBit ((shift + j) % 8) = decide (tab (i + j) = 1)) ∧
    (∀ q, q < shift →
      ((flushRio (response_io_status_loop tab i count ⟨resp, off, shift, byte⟩)) off).testBit q
        = byte.testBit q) ∧
    (∀ p, p < off →
      (flushRio (response_io_status_loop tab i count ⟨resp, off, shift, byte⟩)) p = resp p) := by
  induction count with
  | zero =>
      intro tab i off shift byte resp hsh hb _
      refine ⟨⟨by simp [response_io_status_loop]; omega,
        by simp [response_io_status_loop]; omega⟩, ?_, ?_, ?_⟩
      · intro j hj
        omega
      · intro q hq
        simp only [response_io_status_loop, flushRio]
        rw [if_pos (show (RioState.mk resp off shift byte).shift ≠ 0 by show shift ≠ 0; omega)]
        simp [writeByte]
      · intro p hp
        simp only [response_io_status_loop, flushRio]
        by_cases h0 : shift = 0
        · rw [if_neg (by simp [h0])]
        · rw [if_pos (by simpa using h0)]
          simp [writeByte]
          omega
  | succ n ih =>
      intro tab i off shift byte resp hsh hb htab
      have htab0 : tab i < 2 := by
        have := htab 0 (by omega)
        simpa using this
      have htab' : ∀ j, j < n → tab (i + 1 + j) < 2 := by
        intro j hj
        have := htab (j + 1) (by omega)
        have e : i + (j + 1) = i + 1 + j := by omega
        rwa [e] at this
      have hb' : byte ||| (tab i <<< shift) < 2 ^ (shift + 1) := by
        apply Nat.or_lt_two_pow
        · exact lt_of_lt_of_le hb (Nat.pow_le_pow_right (by norm_num) (by omega))
        · rw [Nat.shiftLeft_eq, pow_succ]
          have h2 : (2:Nat) ^ shift > 0 := Nat.two_pow_pos shift
          nlinarith
      have hbit_lt : ∀ q, q < shift → (byte ||| (tab i <<< shift)).testBit q = byte.testBit q := by
        intro q hq
        rw [Nat.testBit_or, Nat.testBit_shiftLeft]
        have : decide (q ≥ shift) = false := by simp; omega
        rw [this]
        simp
      have hbit_at : (byte ||| (tab i <<< shift)).testBit shift = decide (tab i = 1) := by
        rw [Nat.testBit_or, Nat.testBit_shiftLeft, Nat.testBit_lt_two_pow hb]
        simp [testBit_zero_of_lt_two _ htab0]
      by_cases hs7 : shift = 7
      · subst hs7
        have hstep : response_io_status_loop tab i (n + 1) ⟨resp, off, 7, byte⟩
            = response_io_status_loop tab (i + 1) n
                ⟨writeByte resp off (byte ||| (tab i <<< 7)), off + 1, 0, 0⟩ := by
          simp [response_io_status_loop]
        obtain ⟨⟨ho, hsft⟩, h2, _, h4⟩ :=
          ih tab (i + 1) (off + 1) 0 0 (writeByte resp off (byte ||| (tab i <<< 7)))
            (by omega) (by norm_num) htab'
        rw [hstep]
        refine ⟨⟨by rw [ho]; omega, by rw [hsft]; omega⟩, ?_, ?_, ?_⟩
        · intro j hj
          cases j with
          | zero =>
              have e1 : off + (7 + 0) / 8 = off := by norm_num
              have e2 : (7 + 0) % 8 = 7 := by norm_num
              rw [e1, e2, h4 off (by omega)]
              have : writeByte resp off (byte ||| (tab i <<< 7)) off = byte ||| (tab i <<< 7) := by
                simp [writeByte]
              rw [this, Nat.add_zero]
              exact hbit_at
          | succ m =>
              have e1 : off + (7 + (m + 1)) / 8 = off + 1 + (0 + m) / 8 := by omega
              have e2 : (7 + (m + 1)) % 8 = (0 + m) % 8 := by omega
              have e3 : i + (m + 1) = i + 1 + m := by omega
              rw [e1, e2, e3]
              exact h2 m (by omega)
        · intro q hq
          rw [h4 off (by omega)]
          have : writeByte resp off (byte ||| (tab i <<< 7)) off = byte ||| (tab i <<< 7) := by
            simp [writeByte]
          rw [this]
          exact hbit_lt q hq
        · intro p hp
          rw [h4 p (by omega)]
          simp [writeByte]
          omega
      · have hstep : response_io_status_loop tab i (n + 1) ⟨resp, off, shift, byte⟩
            = response_io_status_loop tab (i + 1) n
                ⟨resp, off, shift + 1, byte ||| (tab i <<< shift)⟩ := by
          simp [response_io_status_loop, hs7]
        obtain ⟨⟨ho, hsft⟩, h2, h3, h4⟩ :=
          ih tab (i + 1) off (shift + 1) (byte ||| (tab i <<< shift)) resp
            (by omega) hb' htab'
        rw [hstep]
        refine ⟨⟨by rw [ho]; omega, by rw [hsft]; omega⟩, ?_, ?_, ?_⟩
        · intro j hj
          cases j with
          | zero =>
              have e1 : off + (shift + 0) / 8 = off := by
                have : (shift + 0) / 8 = 0 := Nat.div_eq_of_lt (by omega)
                omega
              have e2 : (shift + 0) % 8 = shift := Nat.mod_eq_of_lt (by omega)
              rw [e1, e2, h3 shift (by omega), Nat.add_zero]
              exact hbit_at
          | succ m =>
              have e1 : off + (shift + (m + 1)) / 8 = off + (shift + 1 + m) / 8 := by omega
              have e2 : (shift + (m + 1)) % 8 = (shift + 1 + m) % 8 := by omega
              have e3 : i + (m + 1) = i + 1 + m := by omega
              rw [e1, e2, e3]
              exact h2 m (by omega)
        · intro q hq
          rw [h3 q (by omega)]
          exact hbit_lt q hq
        · exact h4

lemma response_io_status_spec (N : Nat) (bits resp0 : Nat → Nat)
    (hb : ∀ j, j < N → bits j < 2) :
    (∀ p, p < N →
      ((response_io_status 0 N bits resp0 0).1 (p / 8)).testBit (p % 8)
        = decide (bits p = 1)) ∧
    (response_io_status 0 N bits resp0 0).2 = (N + 7) / 8 := by
  obtain ⟨⟨ho, hsft⟩, h2, _, _⟩ :=
    rios_loop_spec N bits 0 0 0 0 resp0 (by norm_num) (by norm_num)
      (by intro j hj; simpa using hb j hj)
  constructor
  · intro p hp
    have h := h2 p hp
    simpa using h
  · show flushRioOffset _ = _
    unfold flushRioOffset
    rw [hsft, ho]
    split_ifs <;> omega

lemma sbfb_loop_untouched (count : Nat) :
    ∀ (tab : Nat → Nat) (address i shift : Nat) (dest : Nat → Nat) (p : Nat), p < i →
    set_bits_from_bytes_loop tab address i shift count dest p = dest p := by
  induction count with
  | zero =>
      intro tab address i shift dest p _
      rfl
  | succ n ih =>
      intro tab address i shift dest p hp
      simp only [set_bits_from_bytes_loop]
      rw [ih _ _ _ _ _ _ (by omega)]
      simp [writeByte]
      omega

lemma sbfb_loop_value (count : Nat) :
    ∀ (tab : Nat → Nat) (i shift : Nat) (dest : Nat → Nat) (p : Nat),
    shift = i % 8 → i ≤ p → p < i + count →
    set_bits_from_bytes_loop tab 0 i shift count dest p
      = (if tab (p / 8) &&& (1 <<< (p % 8)) ≠ 0 then ON else OFF) := by
  induction count with
  | zero =>
      intro tab i shift dest p _ h1 h2
      omega
  | succ n ih =>
      intro tab i shift dest p hsh h1 h2
      simp only [set_bits_from_bytes_loop]
      by_cases hpi : p = i
      · subst hpi
        rw [sbfb_loop_untouched n tab 0 (p + 1) _ _ p (by omega)]
        simp only [writeByte, if_pos rfl, Nat.sub_zero, hsh]
        simp
      · exact ih tab (i + 1) ((shift + 1) % 8) _ p (by omega) (by omega) (by omega)

/-- Claim C8: for every N up to 2000 and every sequence of N booleans,
packing the sequence LSB-first into ceil(N/8) bytes with
response_io_status and unpacking N bits from those bytes with
set_bits_from_bytes reproduces the original sequence. -/
theorem c8_pack_unpack_roundtrip (N : Nat) (bits dest resp0 : Nat → Nat)
    (hN : N ≤ 2000) (hb : ∀ j, j < N → bits j < 2) :
    (∀ p, p < N →
      set_bits_from_bytes dest 0 N (response_io_status 0 N bits resp0 0).1 p = bits p) ∧
    (response_io_status 0 N bits resp0 0).2 = (N + 7) / 8 := by
  obtain ⟨hpack, hoff⟩ := response_io_status_spec N bits resp0 hb
  refine ⟨?_, hoff⟩
  intro p hp
  unfold set_bits_from_bytes
  rw [sbfb_loop_value N _ 0 0 dest p (by norm_num) (by omega) (by omega)]
  have hcond := and_shift_ne_zero_iff ((response_io_status 0 N bits resp0 0).1 (p / 8)) (p % 8)
  have hbitsp : bits p < 2 := hb p hp
  by_cases hc : ((response_io_status 0 N bits resp0 0).1 (p / 8)) &&& (1 <<< (p % 8)) ≠ 0
  · rw [if_pos hc]
    have h := hcond.mp hc
    rw [hpack p hp] at h
    simp at h
    rw [h]
    rfl
  · rw [if_neg hc]
    have h : ¬(((response_io_status 0 N bits resp0 0).1 (p / 8)).testBit (p % 8) = true) :=
      fun ht => hc (hcond.mpr ht)
    rw [hpack p hp] at h
    simp at h
    show OFF = bits p
    unfold OFF
    omega

/-- Witness for claim C8: the alternating 10-bit sequence packs into
2 bytes and unpacks to its original values. -/
theorem c8_pack_unpack_roundtrip_witness :
    set_bits_from_bytes (fun _ => 5) 0 10
      (response_io_status 0 10 (fun p => p % 2) (fun _ => 9) 0).1 3 = 1 ∧
    (response_io_status 0 10 (fun p => p % 2) (fun _ => 9) 0).2 = 2 := by
  have h := c8_pack_unpack_roundtrip 10 (fun p => p % 2) (fun _ => 5) (fun _ => 9)
    (by norm_num) (by intro j _; show j % 2 < 2; omega)
  exact ⟨h.1 3 (by norm_num), h.2⟩
